import Mathlib

/-
Verification development for the Cronus wavelength endurance-test engine
(demo.py).  The per-channel test worker (`TestWorker`), its single-attempt
protocol (`_perform_wavelength_attempt`), the power-curve phase
(`_measure_power_curve`), and the statistics panel ETA computation
(`ChannelPanel.on_result` / `_update_eta`) are shallowly embedded below.

Modelling conventions:
  * The device is a remote HTTP service; every request either yields a
    parsed response or (on any transport error / non-2xx / malformed body)
    `None`.  Responses consumed by the embedded code are modelled as
    oracle streams indexed by the number of requests of that kind made so
    far (`polls : Nat → Option ChStatus`, `conn : Nat → Bool`, ...).
  * `self.running` is the cooperative-cancellation flag; the claims under
    study concern runs during which it is not flipped, so it is modelled
    as a constant Boolean consulted wherever the Python code reads it.
  * Wall-clock time is modelled nominally: only the explicit
    `time.sleep` calls advance the clock (by their argument, in seconds,
    as a rational number).
  * Python floats are modelled as rationals; `int(x)` is truncation
    toward zero; `round(x, 1)` is round-half-to-even at one decimal.
  * `random.uniform(a, b)` is modelled as an oracle stream of draws; the
    theorems quantify over all draw values.
-/

namespace Cronus

/-- Body of a `GET /Ch{n}/Status` response, as consumed by the worker:
`IsWavelengthSettingActive` and `WavelengthSettingState`. -/
structure ChStatus where
  isWavelengthSettingActive : Bool
  wavelengthSettingState : String
deriving DecidableEq

/-- A status poll result reports the setting active (`st is not None` and
the `IsWavelengthSettingActive` flag is true). -/
def isActivePoll (o : Option ChStatus) : Bool :=
  match o with
  | none => false
  | some st => st.isWavelengthSettingActive

/-- A status poll result reports the setting flag cleared (`st is not None`
and the `IsWavelengthSettingActive` flag is false). -/
def isClearedPoll (o : Option ChStatus) : Bool :=
  match o with
  | none => false
  | some st => !st.isWavelengthSettingActive

/-- A status poll result carries `WavelengthSettingState = "Success"`. -/
def isSuccessState (o : Option ChStatus) : Bool :=
  match o with
  | none => false
  | some st => st.wavelengthSettingState == "Success"

/-- Activation phase of `TestWorker._perform_wavelength_attempt`
(demo.py lines 292-303): up to 10 polls; a poll with no response signals
connection loss, sleeps 0.5 s and moves to the next loop iteration; an
inactive poll sleeps 0.5 s; an active poll breaks out.  Arguments: the
remaining loop iterations (fuel), the index of the next status poll in the
poll stream, elapsed time so far.  Returns
(`active_started`, next poll index, elapsed time). -/
def activationPhase (running : Bool) (polls : ℕ → Option ChStatus) :
    ℕ → ℕ → ℚ → Bool × ℕ × ℚ
  | 0, j, t => (false, j, t)
  | fuel + 1, j, t =>
    if running = false then (false, j, t)
    else
      match polls j with
      | none => activationPhase running polls fuel (j + 1) (t + 1/2)
      | some st =>
        if st.isWavelengthSettingActive then (true, j + 1, t)
        else activationPhase running polls fuel (j + 1) (t + 1/2)

/-- Completion phase of `TestWorker._perform_wavelength_attempt`
(demo.py lines 306-318): up to 120 polls; a poll with no response signals
connection loss, sleeps 1 s and moves on; a poll with the flag cleared
breaks with success iff `WavelengthSettingState == "Success"`; an
active poll sleeps 1 s.  Returns (success, elapsed time). -/
def completionPhase (running : Bool) (polls : ℕ → Option ChStatus) :
    ℕ → ℕ → ℚ → Bool × ℚ
  | 0, _, t => (false, t)
  | fuel + 1, j, t =>
    if running = false then (false, t)
    else
      match polls j with
      | none => completionPhase running polls fuel (j + 1) (t + 1)
      | some st =>
        if st.isWavelengthSettingActive = false then
          (st.wavelengthSettingState == "Success", t)
        else completionPhase running polls fuel (j + 1) (t + 1)

/-- Embeds `TestWorker._perform_wavelength_attempt` (demo.py lines 285-319).
`putResp` is the response to the initial `PUT /Ch{n}/Wavelength` (its body
is never inspected, only compared with `None`); `polls` is the stream of
`GET /Ch{n}/Status` responses in the order they are made.  Returns the
`(success, duration)` pair, with the duration counted nominally as the
total sleep time since the set command. -/
def performWavelengthAttempt (running : Bool) (putResp : Option Unit)
    (polls : ℕ → Option ChStatus) : Bool × ℚ :=
  match putResp with
  | none => (false, 0)
  | some _ =>
    let r := activationPhase running polls 10 0 0
    if r.1 = false then (false, r.2.2)
    else completionPhase running polls 120 r.2.1 r.2.2

/-- If no poll in the activation window reports the flag active, the
activation phase reports `active_started = false`. -/
lemma activationPhase_false_of (polls : ℕ → Option ChStatus) :
    ∀ fuel j t, (∀ m, j ≤ m → m < j + fuel → isActivePoll (polls m) = false) →
      (activationPhase true polls fuel j t).1 = false := by
  intro fuel
  induction fuel with
  | zero => intro j t _; simp [activationPhase]
  | succ n ih =>
    intro j t h
    have hj : isActivePoll (polls j) = false := h j le_rfl (by omega)
    cases hp : polls j with
    | none =>
      simp only [activationPhase, hp]
      simpa using ih (j + 1) (t + 1/2) (fun m hm1 hm2 => h m (by omega) (by omega))
    | some st =>
      have hst : st.isWavelengthSettingActive = false := by
        simpa [isActivePoll, hp] using hj
      simp only [activationPhase, hp, hst]
      simpa using ih (j + 1) (t + 1/2) (fun m hm1 hm2 => h m (by omega) (by omega))

/-- If the activation phase reports `active_started = true`, there is a
first poll index in its window reporting the flag active, and the next
poll index used afterwards is the one right after it. -/
lemma activationPhase_true_spec (polls : ℕ → Option ChStatus) :
    ∀ fuel j t, (activationPhase true polls fuel j t).1 = true →
      ∃ i, j ≤ i ∧ i < j + fuel ∧ isActivePoll (polls i) = true ∧
        (∀ m, j ≤ m → m < i → isActivePoll (polls m) = false) ∧
        (activationPhase true polls fuel j t).2.1 = i + 1 := by
  intro fuel
  induction fuel with
  | zero => intro j t h; simp [activationPhase] at h
  | succ n ih =>
    intro j t h
    cases hp : polls j with
    | none =>
      simp only [activationPhase, hp] at h ⊢
      simp only [show (true = false) = False by simp, if_false] at h ⊢
      obtain ⟨i, hi1, hi2, hact, hfirst, hidx⟩ := ih (j + 1) (t + 1/2) h
      refine ⟨i, by omega, by omega, hact, ?_, hidx⟩
      intro m hm1 hm2
      rcases Nat.eq_or_lt_of_le hm1 with rfl | hm
      · simp [isActivePoll, hp]
      · exact hfirst m (by omega) hm2
    | some st =>
      cases hst : st.isWavelengthSettingActive with
      | true =>
        refine ⟨j, le_rfl, by omega, by simp [isActivePoll, hp, hst], by omega, ?_⟩
        simp [activationPhase, hp, hst]
      | false =>
        simp only [activationPhase, hp, hst] at h ⊢
        simp only [show (true = false) = False by simp, if_false] at h ⊢
        obtain ⟨i, hi1, hi2, hact, hfirst, hidx⟩ := ih (j + 1) (t + 1/2) h
        refine ⟨i, by omega, by omega, hact, ?_, hidx⟩
        intro m hm1 hm2
        rcases Nat.eq_or_lt_of_le hm1 with rfl | hm
        · simp [isActivePoll, hp, hst]
        · exact hfirst m (by omega) hm2

/-- If some poll in the window reports the flag active and no earlier poll
in the window does, the activation phase reports `active_started = true`. -/
lemma activationPhase_true_intro (polls : ℕ → Option ChStatus) :
    ∀ fuel j t i, j ≤ i → i < j + fuel → isActivePoll (polls i) = true →
      (∀ m, j ≤ m → m < i → isActivePoll (polls m) = false) →
      (activationPhase true polls fuel j t).1 = true := by
  intro fuel
  induction fuel with
  | zero => intro j t i h1 h2 _ _; omega
  | succ n ih =>
    intro j t i h1 h2 hact hfirst
    rcases Nat.eq_or_lt_of_le h1 with rfl | hij
    · rcases hp : polls j with _ | st
      · simp [isActivePoll, hp] at hact
      · have hst : st.isWavelengthSettingActive = true := by
          simpa [isActivePoll, hp] using hact
        simp [activationPhase, hp, hst]
    · have hj : isActivePoll (polls j) = false := hfirst j le_rfl hij
      rcases hp : polls j with _ | st
      · simp only [activationPhase, hp]
        simp only [show (true = false) = False by simp, if_false]
        exact ih (j + 1) (t + 1/2) i (by omega) (by omega) hact
          (fun m hm1 hm2 => hfirst m (by omega) hm2)
      · have hst : st.isWavelengthSettingActive = false := by
          simpa [isActivePoll, hp] using hj
        simp only [activationPhase, hp, hst]
        simp only [show (true = false) = False by simp, if_false]
        exact ih (j + 1) (t + 1/2) i (by omega) (by omega) hact
          (fun m hm1 hm2 => hfirst m (by omega) hm2)

/-- The completion phase reports success exactly when the first poll of its
window that sees the flag cleared carries settle state "Success". -/
lemma completionPhase_true_iff (polls : ℕ → Option ChStatus) :
    ∀ fuel j t, (completionPhase true polls fuel j t).1 = true ↔
      ∃ k, j ≤ k ∧ k < j + fuel ∧ isClearedPoll (polls k) = true ∧
        isSuccessState (polls k) = true ∧
        ∀ m, j ≤ m → m < k → isClearedPoll (polls m) = false := by
  intro fuel
  induction fuel with
  | zero =>
    intro j t
    simp only [completionPhase]
    constructor
    · intro h; simp at h
    · rintro ⟨k, h1, h2, _⟩; omega
  | succ n ih =>
    intro j t
    cases hp : polls j with
    | none =>
      have hcl : isClearedPoll (polls j) = false := by simp [isClearedPoll, hp]
      simp only [completionPhase, hp]
      simp only [show (true = false) = False by simp, if_false]
      rw [ih (j + 1) (t + 1)]
      constructor
      · rintro ⟨k, h1, h2, h3, h4, h5⟩
        refine ⟨k, by omega, by omega, h3, h4, ?_⟩
        intro m hm1 hm2
        rcases Nat.eq_or_lt_of_le hm1 with rfl | hm
        · exact hcl
        · exact h5 m (by omega) hm2
      · rintro ⟨k, h1, h2, h3, h4, h5⟩
        have hkj : j ≠ k := by rintro rfl; rw [hcl] at h3; exact Bool.false_ne_true h3
        exact ⟨k, by omega, by omega, h3, h4, fun m hm1 hm2 => h5 m (by omega) hm2⟩
    | some st =>
      cases hst : st.isWavelengthSettingActive with
      | true =>
        have hcl : isClearedPoll (polls j) = false := by simp [isClearedPoll, hp, hst]
        simp only [completionPhase, hp, hst]
        simp only [show (true = false) = False by simp, if_false,
          show (true = false) = False by simp]
        rw [ih (j + 1) (t + 1)]
        constructor
        · rintro ⟨k, h1, h2, h3, h4, h5⟩
          refine ⟨k, by omega, by omega, h3, h4, ?_⟩
          intro m hm1 hm2
          rcases Nat.eq_or_lt_of_le hm1 with rfl | hm
          · exact hcl
          · exact h5 m (by omega) hm2
        · rintro ⟨k, h1, h2, h3, h4, h5⟩
          have hkj : j ≠ k := by rintro rfl; rw [hcl] at h3; exact Bool.false_ne_true h3
          exact ⟨k, by omega, by omega, h3, h4, fun m hm1 hm2 => h5 m (by omega) hm2⟩
      | false =>
        have hcl : isClearedPoll (polls j) = true := by simp [isClearedPoll, hp, hst]
        simp only [completionPhase, hp, hst]
        simp only [show (true = false) = False by simp, if_false, if_true]
        constructor
        · intro h
          refine ⟨j, le_rfl, by omega, hcl, ?_, by omega⟩
          simpa [isSuccessState, hp] using h
        · rintro ⟨k, h1, h2, h3, h4, h5⟩
          rcases Nat.eq_or_lt_of_le h1 with rfl | hk
          · simpa [isSuccessState, hp] using h4
          · have := h5 j le_rfl hk
            rw [hcl] at this; exact absurd this (by simp)

/-- Two indices that are each a first active poll coincide. -/
lemma first_active_unique (polls : ℕ → Option ChStatus) {i j : ℕ}
    (hi : isActivePoll (polls i) = true)
    (hifirst : ∀ m, m < i → isActivePoll (polls m) = false)
    (hj : isActivePoll (polls j) = true)
    (hjfirst : ∀ m, m < j → isActivePoll (polls m) = false) : i = j := by
  rcases lt_trichotomy i j with h | h | h
  · rw [hjfirst i h] at hi; exact absurd hi (by simp)
  · exact h
  · rw [hifirst j h] at hj; exact absurd hj (by simp)

/-- Claim C1: a single wavelength attempt (with no stop requested) returns
success exactly when the set command got a response, the
is-setting-active flag first became true within the 10-poll activation
budget, and the first subsequent poll (within the 120-poll completion
budget) that saw the flag cleared reported `WavelengthSettingState =
"Success"`; in every other case — no response to the set command, the
flag never true within the 10 polls (completion never entered), the 120
polls exhausted, or the flag clearing with another terminal state — the
attempt returns `success = false` (together with the elapsed time, which
the embedding threads through every return path). -/
theorem performWavelengthAttempt_success_iff (putResp : Option Unit)
    (polls : ℕ → Option ChStatus) :
    (performWavelengthAttempt true putResp polls).1 = true ↔
      (putResp.isSome = true ∧
        ∃ i, i < 10 ∧ isActivePoll (polls i) = true ∧
          (∀ m, m < i → isActivePoll (polls m) = false) ∧
          ∃ k, i < k ∧ k ≤ i + 120 ∧ isClearedPoll (polls k) = true ∧
            (∀ m, i < m → m < k → isClearedPoll (polls m) = false) ∧
            isSuccessState (polls k) = true) := by
  cases putResp with
  | none => simp [performWavelengthAttempt]
  | some u =>
    simp only [performWavelengthAttempt, Option.isSome_some, true_and]
    cases h1 : (activationPhase true polls 10 0 0).1 with
    | false =>
      simp only [h1, if_pos rfl]
      constructor
      · intro h; simp at h
      · rintro ⟨i, hi10, hact, hfirst, -⟩
        have := activationPhase_true_intro polls 10 0 0 i (by omega) (by omega)
          hact (fun m _ hm => hfirst m hm)
        rw [h1] at this; exact absurd this (by simp)
    | true =>
      obtain ⟨i, -, hi10, hact, hfirst, hidx⟩ :=
        activationPhase_true_spec polls 10 0 0 h1
      simp only [h1, show (true = false) = False by simp, if_false, hidx]
      rw [completionPhase_true_iff]
      constructor
      · rintro ⟨k, hk1, hk2, hkc, hks, hkfirst⟩
        exact ⟨i, by omega, hact, (fun m hm => hfirst m (by omega) hm),
          k, by omega, by omega, hkc,
          (fun m hm1 hm2 => hkfirst m (by omega) hm2), hks⟩
      · rintro ⟨j, hj10, hjact, hjfirst, k, hk1, hk2, hkc, hkfirst, hks⟩
        have hij : i = j := first_active_unique polls hact
          (fun m hm => hfirst m (by omega) hm) hjact hjfirst
        subst hij
        exact ⟨k, by omega, by omega, hkc, hks,
          fun m hm1 hm2 => hkfirst m (by omega) hm2⟩

/-- A poll stream in which the first 5 status polls get no response, the
next 9 get a response with the setting not yet active, poll 14 reports the
setting active, and every later poll reports it cleared with state
"Success". -/
def pollsBudgetDemo : ℕ → Option ChStatus := fun i =>
  if i < 5 then none
  else if i < 14 then some ⟨false, ""⟩
  else if i = 14 then some ⟨true, ""⟩
  else some ⟨false, "Success"⟩

/-- Claim C2 counterexample: on `pollsBudgetDemo`, only 9 polls before index 14
get a response (all reporting not-yet-active, fewer than the 10 budgeted),
the flag is reported active at poll 14, and a later poll clears with
"Success"; yet the attempt fails after 5.0 s because the 5 failed polls
each consumed one of the 10 activation iterations (`continue` in
`for _ in range(10)` advances the loop), so the budget ran out at poll 10. -/
theorem activation_budget_consumed_by_failed_polls_cex :
    performWavelengthAttempt true (some ()) pollsBudgetDemo = (false, 5) ∧
    isActivePoll (pollsBudgetDemo 14) = true ∧
    ((List.range 14).filter (fun i => (pollsBudgetDemo i).isSome)).length = 9 := by
  refine ⟨?_, by norm_num [pollsBudgetDemo, isActivePoll], by decide⟩
  norm_num [performWavelengthAttempt, activationPhase, pollsBudgetDemo]

/-- Claim C2 (amended): a failed activation poll signals connection-loss, waits
0.5 s and is retried, but the retry consumes one of the 10 budgeted loop
iterations exactly as a successful poll does; consequently, whenever none
of the first 10 polls (responding or not) reports the flag active, the
activation phase times out and the attempt fails. -/
theorem activation_times_out_after_ten_polls (putResp : Option Unit)
    (polls : ℕ → Option ChStatus)
    (h : ∀ i, i < 10 → isActivePoll (polls i) = false) :
    (performWavelengthAttempt true putResp polls).1 = false := by
  cases putResp with
  | none => simp [performWavelengthAttempt]
  | some u =>
    have hf : (activationPhase true polls 10 0 0).1 = false :=
      activationPhase_false_of polls 10 0 0 (fun m _ hm => h m (by omega))
    simp [performWavelengthAttempt, hf]

/-- Witness for the amended C2 theorem at the all-failed poll stream. -/
theorem activation_times_out_after_ten_polls_witness :
    (∀ i, i < 10 → isActivePoll ((fun _ => (none : Option ChStatus)) i) = false) ∧
    (performWavelengthAttempt true (some ()) (fun _ => none)).1 = false :=
  ⟨fun _ _ => rfl,
    activation_times_out_after_ten_polls (some ()) (fun _ => none) (fun _ _ => rfl)⟩

/-- Python `int(x)` applied to a float: truncation toward zero. -/
def pyTrunc (x : ℚ) : ℤ := if 0 ≤ x then ⌊x⌋ else -⌊-x⌋

/-- Length of Python `range(a, stop, step)` for a positive step. -/
def pyRangeLen (a stop step : ℤ) : ℕ := ((stop - a + step - 1) / step).toNat

/-- Python `list(range(a, stop, step))` for a positive step. -/
def pyRange (a stop step : ℤ) : List ℤ :=
  (List.range (pyRangeLen a stop step)).map (fun (k : ℕ) => a + step * (k : ℤ))

/-- Wavelength grid of `TestWorker._measure_power_curve` (demo.py lines
326-332): when the resolved span is below 10 nm, the single point
`int((range_min + range_max) / 2)`; otherwise
`list(range(int(range_min), int(range_max) + 1, 10))`, with
`int(range_max)` appended when the last grid point falls short of it.
(The source reads `wls[-1]`, presuming the list nonempty; that holds
whenever the else-branch is reached, and the empty case is mapped to "no
append".) -/
def measurePowerCurveGrid (rmin rmax : ℚ) : List ℤ :=
  if rmax - rmin < 10 then [pyTrunc ((rmin + rmax) / 2)]
  else
    let wls := pyRange (pyTrunc rmin) (pyTrunc rmax + 1) 10
    match wls.getLast? with
    | none => wls
    | some l => if l < pyTrunc rmax then wls ++ [pyTrunc rmax] else wls

/-- Membership in the embedded Python `range` with step 10. -/
lemma mem_pyRange {a stop x : ℤ} :
    x ∈ pyRange a stop 10 ↔ ∃ k : ℕ, x = a + 10 * k ∧ a + 10 * (k : ℤ) < stop := by
  simp only [pyRange, pyRangeLen, List.mem_map, List.mem_range]
  constructor
  · rintro ⟨k, hk, rfl⟩
    exact ⟨k, rfl, by omega⟩
  · rintro ⟨k, rfl, hk⟩
    exact ⟨k, by omega, rfl⟩

/-- The last element of a nonempty embedded `range` with step 10. -/
lemma pyRange_getLast (a stop : ℤ) (h : 0 < pyRangeLen a stop 10) :
    (pyRange a stop 10).getLast? =
      some (a + 10 * ((pyRangeLen a stop 10 : ℤ) - 1)) := by
  obtain ⟨n, hn⟩ : ∃ n, pyRangeLen a stop 10 = n + 1 :=
    ⟨_, (Nat.succ_pred_eq_of_pos h).symm⟩
  rw [pyRange, hn, List.range_succ, List.map_append, List.map_singleton,
    List.getLast?_concat]
  congr 1
  push_cast
  ring

/-- Claim C3 counterexample: for the resolved interval [1000, 1025.5] (span
25.5 ≥ 10), the sampled grid is [1000, 1010, 1020, 1025]: the last sample
point is `int(1025.5) = 1025`, not the exact upper bound 1025.5, although
1025.5 does not lie on the 10 nm grid — contradicting "always including
the exact upper bound of the interval as the last point". -/
theorem powerCurve_grid_upper_bound_cex :
    measurePowerCurveGrid 1000 (2051/2) = [1000, 1010, 1020, 1025] ∧
    ((1025 : ℚ) ≠ 2051/2) := by
  constructor
  · have h1 : pyTrunc (1000 : ℚ) = 1000 := by
      rw [pyTrunc, if_pos (by norm_num)]; norm_num
    have h2 : pyTrunc ((2051 : ℚ)/2) = 1025 := by
      rw [pyTrunc, if_pos (by norm_num)]; norm_num
    simp only [measurePowerCurveGrid, h1, h2]
    rw [if_neg (by norm_num)]
    decide
  · norm_num

/-- Claim C3 (amended): for a resolved interval with nonnegative bounds and a
span of at least 10 nm, the sampled grid is exactly the set of integer
points `int(min) + 10*k` lying in `[int(min), int(max)]` together with
`int(max)`, and its final element is `int(max)` — the integer truncation
of the upper bound (not the exact upper bound when that is fractional);
for a span below 10 nm the single sample is `int((min + max)/2)`, the
truncated midpoint. -/
theorem powerCurve_grid_spec (rmin rmax : ℚ) (h0 : 0 ≤ rmin)
    (h10 : 10 ≤ rmax - rmin) :
    (measurePowerCurveGrid rmin rmax).getLast? = some (pyTrunc rmax) ∧
    ∀ x : ℤ, x ∈ measurePowerCurveGrid rmin rmax ↔
      (pyTrunc rmin ≤ x ∧ x ≤ pyTrunc rmax ∧
        ((10:ℤ) ∣ (x - pyTrunc rmin) ∨ x = pyTrunc rmax)) := by
  have hnotlt : ¬ (rmax - rmin < 10) := not_lt.mpr h10
  have h0m : (0:ℚ) ≤ rmax := by linarith
  have hab : pyTrunc rmin + 10 ≤ pyTrunc rmax := by
    rw [pyTrunc, if_pos h0, pyTrunc, if_pos h0m]
    have h2 : ⌊rmin + ((10:ℤ):ℚ)⌋ ≤ ⌊rmax⌋ := Int.floor_le_floor (by push_cast; linarith)
    rw [Int.floor_add_int] at h2
    omega
  have hlenpos : 0 < pyRangeLen (pyTrunc rmin) (pyTrunc rmax + 1) 10 := by
    simp only [pyRangeLen]; omega
  have hlast := pyRange_getLast (pyTrunc rmin) (pyTrunc rmax + 1) hlenpos
  have hgrid : measurePowerCurveGrid rmin rmax =
      if (pyTrunc rmin + 10 *
          ((pyRangeLen (pyTrunc rmin) (pyTrunc rmax + 1) 10 : ℤ) - 1)) < pyTrunc rmax
      then pyRange (pyTrunc rmin) (pyTrunc rmax + 1) 10 ++ [pyTrunc rmax]
      else pyRange (pyTrunc rmin) (pyTrunc rmax + 1) 10 := by
    simp only [measurePowerCurveGrid]
    rw [if_neg hnotlt, hlast]
  by_cases hdvd : (10:ℤ) ∣ (pyTrunc rmax - pyTrunc rmin)
  · have hLb : pyTrunc rmin + 10 *
        ((pyRangeLen (pyTrunc rmin) (pyTrunc rmax + 1) 10 : ℤ) - 1) = pyTrunc rmax := by
      simp only [pyRangeLen]; omega
    rw [hgrid, if_neg (by omega)]
    constructor
    · rw [hlast, hLb]
    · intro x
      rw [mem_pyRange]
      constructor
      · rintro ⟨k, rfl, hk⟩
        exact ⟨by omega, by omega, Or.inl ⟨(k : ℤ), by ring⟩⟩
      · rintro ⟨hax, hxb, hdx | rfl⟩
        · rcases hdx with ⟨c, hc⟩
          exact ⟨c.toNat, by omega, by omega⟩
        · rcases hdvd with ⟨c, hc⟩
          exact ⟨c.toNat, by omega, by omega⟩
  · have hLlt : pyTrunc rmin + 10 *
        ((pyRangeLen (pyTrunc rmin) (pyTrunc rmax + 1) 10 : ℤ) - 1) < pyTrunc rmax := by
      simp only [pyRangeLen]; omega
    rw [hgrid, if_pos hLlt]
    constructor
    · rw [List.getLast?_concat]
    · intro x
      rw [List.mem_append, List.mem_singleton, mem_pyRange]
      constructor
      · rintro (⟨k, rfl, hk⟩ | rfl)
        · exact ⟨by omega, by omega, Or.inl ⟨(k : ℤ), by ring⟩⟩
        · exact ⟨by omega, le_rfl, Or.inr rfl⟩
      · rintro ⟨hax, hxb, hdx | rfl⟩
        · rcases hdx with ⟨c, hc⟩
          exact Or.inl ⟨c.toNat, by omega, by omega⟩
        · exact Or.inr rfl

/-- Witness for the amended C3 theorem at the interval [1000, 1025]. -/
theorem powerCurve_grid_spec_witness :
    (0:ℚ) ≤ 1000 ∧ (10:ℚ) ≤ 1025 - 1000 ∧
    (measurePowerCurveGrid 1000 1025).getLast? = some (pyTrunc 1025) :=
  ⟨by norm_num, by norm_num,
    (powerCurve_grid_spec 1000 1025 (by norm_num) (by norm_num)).1⟩

/-- Per-channel statistics kept by `ChannelPanel` and mutated by
`on_result` (demo.py lines 426-427 and 668-684). -/
structure PanelStats where
  successCount : ℕ
  failCount : ℕ
  totalTime : ℚ
  durations : List ℚ
  successWavelengths : List ℚ
  failedWavelengths : List ℚ
  wavelengths : List ℚ
deriving DecidableEq

/-- The cleared statistics (`_clear_statistics`, run start). -/
def initPanelStats : PanelStats := ⟨0, 0, 0, [], [], [], []⟩

/-- State-update part of `ChannelPanel.on_result` (demo.py lines 668-684,
with `aborted = False`): a success bumps `success_count`, `total_time` and
the success list; a failure bumps `fail_count` and the failure list; the
duration and wavelength of EVERY attempt are appended to `durations` and
`wavelengths`. -/
def onResult (s : PanelStats) (success : Bool) (duration wavelength : ℚ) :
    PanelStats :=
  let s1 :=
    if success then
      { s with successCount := s.successCount + 1,
               totalTime := s.totalTime + duration,
               successWavelengths := s.successWavelengths ++ [wavelength] }
    else
      { s with failCount := s.failCount + 1,
               failedWavelengths := s.failedWavelengths ++ [wavelength] }
  { s1 with durations := s1.durations ++ [duration],
            wavelengths := s1.wavelengths ++ [wavelength] }

/-- The value `ChannelPanel._update_eta` stores in `latest_eta`, before
string formatting: "∞", "0s", "-" (unknown), or a number of seconds. -/
inductive EtaValue where
  | infinite
  | zero
  | unknown
  | seconds (remaining : ℚ)
deriving DecidableEq

/-- Embeds `ChannelPanel._update_eta` (demo.py lines 558-571): falsy
`total_cycles` (None or 0) gives "∞"; `remaining ≤ 0` gives "0s"; an empty
`durations` list gives "-"; otherwise
`remaining * (avg(durations) + wait_time + 3)` seconds, where `durations`
holds the durations of all attempts recorded by `on_result`. -/
def updateEta (totalCycles : Option ℕ) (waitTime : ℚ) (s : PanelStats) :
    EtaValue :=
  match totalCycles with
  | none => .infinite
  | some n =>
    if n = 0 then .infinite
    else if n ≤ s.successCount + s.failCount then .zero
    else if s.durations.length = 0 then .unknown
    else .seconds (((n : ℚ) - ((s.successCount + s.failCount : ℕ) : ℚ)) *
        (s.durations.sum / (s.durations.length : ℚ) + waitTime + 3))

/-- Claim C5 counterexample: after a single FAILED attempt of duration 7 s (no
successful attempt recorded), with 5 cycles configured and wait_time 3,
the code reports an ETA of (5 − 1) × (7 + 3 + 3) = 52 seconds — not
"unknown", and computed from the duration of a failed attempt — contradicting
"if no successful attempt has yet been recorded the ETA is unknown" and
"only successful attempts contribute to the average duration used". -/
theorem eta_unknown_cex :
    (onResult initPanelStats false 7 1000).successCount = 0 ∧
    updateEta (some 5) 3 (onResult initPanelStats false 7 1000) =
      .seconds 52 := by
  constructor
  · rfl
  · norm_num [updateEta, onResult, initPanelStats]

/-- The statistics as a fold of `on_result` over the outcome stream, each
outcome being (success, duration, wavelength). -/
def panelFold (outcomes : List (Bool × ℚ × ℚ)) : PanelStats :=
  outcomes.foldl (fun s o => onResult s o.1 o.2.1 o.2.2) initPanelStats

/-- Folding `on_result` appends the duration of every outcome to `durations`
and grows `success_count + fail_count` by the number of outcomes. -/
lemma panelFold_invariants :
    ∀ (l : List (Bool × ℚ × ℚ)) (s : PanelStats),
      (l.foldl (fun s o => onResult s o.1 o.2.1 o.2.2) s).durations
          = s.durations ++ l.map (fun o => o.2.1) ∧
      (l.foldl (fun s o => onResult s o.1 o.2.1 o.2.2) s).successCount +
          (l.foldl (fun s o => onResult s o.1 o.2.1 o.2.2) s).failCount
        = s.successCount + s.failCount + l.length := by
  intro l
  induction l with
  | nil => intro s; simp
  | cons o rest ih =>
    intro s
    simp only [List.foldl_cons, List.map_cons, List.length_cons]
    obtain ⟨h1, h2⟩ := ih (onResult s o.1 o.2.1 o.2.2)
    constructor
    · rw [h1]
      cases ho : o.1 <;> simp [onResult, ho]
    · rw [h2]
      cases ho : o.1 <;> simp [onResult, ho] <;> omega

/-- Claim C5 (amended): with a finite cycle budget `N` not yet reached, the ETA
is "unknown" exactly when no attempt at all has been recorded; as soon as
any attempt (successful or failed) exists, the ETA equals
`(N − attemptsDone) × (average of the durations of ALL attempts + wait_time + 3)`
— failed attempts contribute to the average exactly like successful
ones. -/
theorem eta_formula_spec (outcomes : List (Bool × ℚ × ℚ)) (N : ℕ)
    (waitTime : ℚ) (hN : outcomes.length < N) :
    (outcomes = [] →
      updateEta (some N) waitTime (panelFold outcomes) = .unknown) ∧
    (outcomes ≠ [] →
      updateEta (some N) waitTime (panelFold outcomes) =
        .seconds (((N : ℚ) - (outcomes.length : ℚ)) *
          ((outcomes.map (fun o => o.2.1)).sum / (outcomes.length : ℚ) +
            waitTime + 3))) := by
  obtain ⟨hdur, hcount⟩ := panelFold_invariants outcomes initPanelStats
  have hdur' : (panelFold outcomes).durations = outcomes.map (fun o => o.2.1) := by
    simpa [panelFold, initPanelStats] using hdur
  have hcount' : (panelFold outcomes).successCount +
      (panelFold outcomes).failCount = outcomes.length := by
    simpa [panelFold, initPanelStats] using hcount
  have hlen : (panelFold outcomes).durations.length = outcomes.length := by
    rw [hdur']; simp
  constructor
  · rintro rfl
    simp only [panelFold, List.foldl_nil]
    simp [updateEta, initPanelStats, show ¬ (N = 0) by omega,
      show ¬ (N ≤ 0) by omega]
  · intro hne
    have hlenpos : 0 < outcomes.length := List.length_pos.mpr hne
    clear hdur hcount
    simp only [updateEta, hcount', hdur', List.length_map]
    rw [if_neg (by omega), if_neg (by omega), if_neg (by omega)]

/-- A one-outcome stream used to witness the amended C5 theorem. -/
def etaDemoOutcomes : List (Bool × ℚ × ℚ) := [(true, 2, 1000)]

/-- Witness for the amended C5 theorem on a one-outcome stream. -/
theorem eta_formula_spec_witness :
    etaDemoOutcomes.length < 3 ∧
    (etaDemoOutcomes ≠ [] →
      updateEta (some 3) 1 (panelFold etaDemoOutcomes) =
        .seconds (((3 : ℚ) - (etaDemoOutcomes.length : ℚ)) *
          ((etaDemoOutcomes.map (fun o => o.2.1)).sum /
            (etaDemoOutcomes.length : ℚ) + 1 + 3))) :=
  ⟨by norm_num [etaDemoOutcomes],
    (eta_formula_spec etaDemoOutcomes 3 1 (by norm_num [etaDemoOutcomes])).2⟩

/-- Round-half-to-even to the nearest integer (the tie rule of the Python
`round` builtin). -/
def roundHalfEven (x : ℚ) : ℤ :=
  if x - ⌊x⌋ < 1/2 then ⌊x⌋
  else if 1/2 < x - ⌊x⌋ then ⌊x⌋ + 1
  else if 2 ∣ ⌊x⌋ then ⌊x⌋ else ⌊x⌋ + 1

/-- Python `round(x, 1)`: round to one decimal place. -/
def roundTo1 (x : ℚ) : ℚ := (roundHalfEven (10 * x) : ℚ) / 10

/-- One recorded attempt (an entry of `TestWorker.test_results`,
demo.py lines 268-273, without the wall-clock timestamp). -/
structure AttemptOutcome where
  wavelength : ℚ
  wlSuccess : Bool
  wlDuration : ℚ
deriving DecidableEq

/-- Environment of a `TestWorker` run: the cancellation flag (constant for
the runs under study) and the oracle streams for the device responses and
the random draws, each indexed by how many requests/draws of that kind
were made so far.  `conn` is the result of `check_connection`; `draw` the
value of `random.uniform(range_min, range_max)`; `attemptResult` the
`(success, duration)` of `_perform_wavelength_attempt`; `power` the
`Power` field of a `GET /Ch{n}/Power` response (`none` for no/not-OK
response). -/
structure RunEnv where
  running : Bool
  conn : ℕ → Bool
  draw : ℕ → ℚ
  attemptResult : ℕ → Bool × ℚ
  power : ℕ → Option ℚ

/-- Mutable state of the main loop of `TestWorker.run`: the cycle counter,
the recorded outcomes, the failure-log lines (wavelength, duration), the
wavelengths emitted via `current_wavelength`, the number of
`connection_lost` emissions, and the consumption counters of the `conn`,
`attemptResult` and `draw` oracles. -/
structure RunSt where
  attempts : ℕ
  results : List AttemptOutcome
  failLog : List (ℚ × ℚ)
  commanded : List ℚ
  lost : ℕ
  ci : ℕ
  ai : ℕ
  di : ℕ
deriving DecidableEq

/-- The state at the top of `TestWorker.run` (demo.py lines 252-254). -/
def initRunSt : RunSt := ⟨0, [], [], [], 0, 0, 0, 0⟩

/-- One iteration of the `while` loop of `TestWorker.run` (demo.py lines
258-280): a failed `check_connection` emits `connection_lost`, sleeps 2 s
and continues; otherwise a wavelength is drawn, rounded to one decimal,
clamped into the device range, emitted, attempted, recorded (appending a
failure-log line when unsuccessful), and the loop sleeps
`wait_time + 3`. -/
def runIter (deviceMin deviceMax : ℚ) (env : RunEnv) (s : RunSt) : RunSt :=
  if env.conn s.ci = false then
    { s with ci := s.ci + 1, lost := s.lost + 1 }
  else
    let wl := min (max (roundTo1 (env.draw s.di)) deviceMin) deviceMax
    let r := env.attemptResult s.ai
    { attempts := s.attempts + 1
      results := s.results ++ [⟨wl, r.1, r.2⟩]
      failLog := if r.1 then s.failLog else s.failLog ++ [(wl, r.2)]
      commanded := s.commanded ++ [wl]
      lost := s.lost
      ci := s.ci + 1
      ai := s.ai + 1
      di := s.di + 1 }

/-- Embeds the `while` condition of `TestWorker.run` apart from `self.running`:
`self.cycles is None or attempts < self.cycles`. -/
def loopCond (cycles : Option ℕ) (attempts : ℕ) : Bool :=
  match cycles with
  | none => true
  | some n => decide (attempts < n)

/-- The fueled main loop of `TestWorker.run`: each unit of fuel allows one
`while` iteration; once the condition is false the state is final. -/
def runLoop (deviceMin deviceMax : ℚ) (env : RunEnv) (cycles : Option ℕ) :
    ℕ → RunSt → RunSt
  | 0, s => s
  | fuel + 1, s =>
    if env.running && loopCond cycles s.attempts then
      runLoop deviceMin deviceMax env cycles fuel (runIter deviceMin deviceMax env s)
    else s

/-- The parameters dictionary handed to `TestWorker.__init__`. -/
structure TestParams where
  testMin : Option ℚ
  testMax : Option ℚ
  waitTime : ℚ
  cycles : Option ℤ
  measurePowerCurve : Bool
deriving DecidableEq

/-- The configuration fields `TestWorker.__init__` computes. -/
structure WorkerCfg where
  waitTime : ℚ
  rangeMin : Option ℚ
  rangeMax : Option ℚ
  cycles : Option ℕ
  measurePowerCurve : Bool
  deviceMin : Option ℚ
  deviceMax : Option ℚ
deriving DecidableEq

/-- Embeds `TestWorker.__init__` (demo.py lines 216-239): `cycles` of `None` or
`≤ 0` becomes unbounded (`none`); when either device bound is missing the
resolved range is cleared; otherwise unset requested bounds default to the
device bounds, the requested bounds are clamped into the device range, and
a degenerate clamp (`min ≥ max`) falls back to the full device range. -/
def mkWorker (params : TestParams) (deviceRange : Option ℚ × Option ℚ) :
    WorkerCfg :=
  let cycles : Option ℕ :=
    match params.cycles with
    | none => none
    | some c => if c ≤ 0 then none else some c.toNat
  match deviceRange with
  | (some dmin, some dmax) =>
    let r0 : ℚ × ℚ :=
      match params.testMin, params.testMax with
      | some t1, some t2 => (t1, t2)
      | _, _ => (dmin, dmax)
    let r1min := max r0.1 dmin
    let r1max := min r0.2 dmax
    let rr : ℚ × ℚ := if r1max ≤ r1min then (dmin, dmax) else (r1min, r1max)
    ⟨params.waitTime, some rr.1, some rr.2, cycles, params.measurePowerCurve,
      some dmin, some dmax⟩
  | (d1, d2) =>
    ⟨params.waitTime, none, none, cycles, params.measurePowerCurve, d1, d2⟩

/-- One entry of `TestWorker.power_curve_data`. -/
structure PowerSample where
  wavelength : ℚ
  power : ℚ
deriving DecidableEq

/-- State of the power-curve loop: consumption counters of the `conn`,
`attemptResult` and `power` oracles, `connection_lost` emissions, and the
collected samples. -/
structure PCSt where
  ci : ℕ
  ai : ℕ
  pqi : ℕ
  lost : ℕ
  samples : List PowerSample
deriving DecidableEq

/-- The starting state of the power-curve loop, given the oracle positions
reached so far. -/
def pcInit : PCSt := ⟨0, 0, 0, 0, []⟩

/-- Embeds the `for wl in wls` loop of `TestWorker._measure_power_curve`
(demo.py lines 333-346): per point a failed `check_connection` emits
`connection_lost`, sleeps 2 s and re-checks once; if the re-check also
fails the loop BREAKS (ending the phase); otherwise the point is clamped
into the device range and attempted; on success, after a 3 s settle wait
the power is queried and a sample recorded when the response is OK; on
failure the point is skipped; then the next point. -/
def pcLoop (deviceMin deviceMax : ℚ) (env : RunEnv) : List ℤ → PCSt → PCSt
  | [], s => s
  | wl :: rest, s =>
    if env.running = false then s
    else if env.conn s.ci = false ∧ env.conn (s.ci + 1) = false then
      { s with ci := s.ci + 2, lost := s.lost + 1 }
    else
      let s0 := if env.conn s.ci then { s with ci := s.ci + 1 }
                else { s with ci := s.ci + 2, lost := s.lost + 1 }
      let wlq := min (max (wl : ℚ) deviceMin) deviceMax
      let r := env.attemptResult s0.ai
      let s1 := { s0 with ai := s0.ai + 1 }
      if r.1 then
        match env.power s1.pqi with
        | some p =>
          pcLoop deviceMin deviceMax env rest
            { s1 with pqi := s1.pqi + 1, samples := s1.samples ++ [⟨wlq, p⟩] }
        | none => pcLoop deviceMin deviceMax env rest { s1 with pqi := s1.pqi + 1 }
      else pcLoop deviceMin deviceMax env rest s1

/-- Embeds `TestWorker._measure_power_curve` (demo.py lines 321-347): empty
emission when the resolved range is unknown; otherwise the grid is walked
by `pcLoop` starting from cleared `power_curve_data`, and the collected
samples are emitted via `power_curve_finished`. -/
def measurePowerCurvePhase (rangeMin rangeMax : Option ℚ)
    (deviceMin deviceMax : ℚ) (env : RunEnv) (s : PCSt) :
    PCSt × List PowerSample :=
  match rangeMin, rangeMax with
  | some rmin, some rmax =>
    let f := pcLoop deviceMin deviceMax env (measurePowerCurveGrid rmin rmax)
      { s with samples := [] }
    (f, f.samples)
  | _, _ => (s, [])

/-- Observable outcome of one `TestWorker.run` invocation: the recorded
outcomes, the emitted wavelengths, the failure-log lines, the power-curve
emission (`none` when the phase was not entered), the `finished` signal,
and how many connectivity checks / attempts the run made against the
device (0 of each means the device was never contacted). -/
structure RunOutput where
  results : List AttemptOutcome
  commanded : List ℚ
  failLog : List (ℚ × ℚ)
  powerCurve : Option (List PowerSample)
  finished : Bool
  connChecks : ℕ
  attemptsMade : ℕ
  lost : ℕ
deriving DecidableEq

/-- Embeds `TestWorker.run` (demo.py lines 250-283): after `configure_logs`
(which only writes a log-file header), a missing resolved bound emits
`finished` immediately; otherwise the fueled main loop runs, then the
power-curve phase when configured and still running, then `finished`.
(`mkWorker` guarantees the device bounds are present whenever the
resolved bounds are; `getD` supplies a default on the unreachable
path.) -/
def workerRun (cfg : WorkerCfg) (env : RunEnv) (fuel : ℕ) : RunOutput :=
  match cfg.rangeMin, cfg.rangeMax with
  | some rmin, some rmax =>
    let dmin := cfg.deviceMin.getD rmin
    let dmax := cfg.deviceMax.getD rmax
    let fin := runLoop dmin dmax env cfg.cycles fuel initRunSt
    if cfg.measurePowerCurve && env.running then
      let pc := measurePowerCurvePhase cfg.rangeMin cfg.rangeMax dmin dmax env
        ⟨fin.ci, fin.ai, 0, fin.lost, []⟩
      { results := fin.results, commanded := fin.commanded,
        failLog := fin.failLog, powerCurve := some pc.2, finished := true,
        connChecks := pc.1.ci, attemptsMade := pc.1.ai, lost := pc.1.lost }
    else
      { results := fin.results, commanded := fin.commanded,
        failLog := fin.failLog, powerCurve := none, finished := true,
        connChecks := fin.ci, attemptsMade := fin.ai, lost := fin.lost }
  | _, _ =>
    { results := [], commanded := [], failLog := [], powerCurve := none,
      finished := true, connChecks := 0, attemptsMade := 0, lost := 0 }

/-- A run environment with the device permanently unreachable. -/
def demoEnvDown : RunEnv :=
  ⟨true, fun _ => false, fun _ => 0, fun _ => (true, 1), fun _ => none⟩

/-- A run environment with the device always reachable. -/
def demoEnvUp : RunEnv :=
  ⟨true, fun _ => true, fun _ => 1050, fun _ => (false, 2), fun _ => none⟩

/-- Claim C6: while the pre-cycle `check_connection` keeps failing, each loop
iteration only emits `connection_lost` and sleeps 2 s: after any number
`k` of consecutive failed checks the run state is unchanged except for
the connectivity-check and connection-lost counters — no outcome is
appended, the attempt counter does not advance, nothing is written to the
failure log, no wavelength is commanded — so connectivity outages never
appear in the success/fail tally. -/
theorem conn_failure_frame (deviceMin deviceMax : ℚ) (env : RunEnv)
    (cycles : Option ℕ) (k : ℕ) (hrun : env.running = true) :
    ∀ s : RunSt, loopCond cycles s.attempts = true →
      (∀ j, j < k → env.conn (s.ci + j) = false) →
      runLoop deviceMin deviceMax env cycles k s =
        { s with ci := s.ci + k, lost := s.lost + k } := by
  induction k with
  | zero => intro s _ _; simp [runLoop]
  | succ n ih =>
    intro s hcond hfail
    have h0 : env.conn s.ci = false := by simpa using hfail 0 (by omega)
    have hstep : runIter deviceMin deviceMax env s =
        { s with ci := s.ci + 1, lost := s.lost + 1 } := by
      simp [runIter, h0]
    simp only [runLoop, hrun, hcond, Bool.and_self, if_true]
    rw [hstep, ih { s with ci := s.ci + 1, lost := s.lost + 1 } hcond
      (fun j hj => by
        show env.conn (s.ci + 1 + j) = false
        have e : s.ci + 1 + j = s.ci + (j + 1) := by omega
        rw [e]
        exact hfail (j + 1) (by omega))]
    dsimp only
    congr 1 <;> omega

/-- Witness for C6: two consecutive failed connectivity checks leave
everything but the check/lost counters unchanged. -/
theorem conn_failure_frame_witness :
    demoEnvDown.running = true ∧
    loopCond (some 5) initRunSt.attempts = true ∧
    (∀ j, j < 2 → demoEnvDown.conn (initRunSt.ci + j) = false) ∧
    runLoop 1000 1100 demoEnvDown (some 5) 2 initRunSt =
      { initRunSt with ci := initRunSt.ci + 2, lost := initRunSt.lost + 2 } :=
  ⟨rfl, rfl, fun _ _ => rfl,
    conn_failure_frame 1000 1100 demoEnvDown (some 5) 2 rfl initRunSt rfl
      (fun _ _ => rfl)⟩

/-- Claim C8: every wavelength the run loop emits via `current_wavelength` lies
within `[device_min, device_max]` (for a well-ordered device range): the
drawn value — whatever `random.uniform` returns and however rounding to
one decimal moves it — is clamped into the device range immediately
before dispatch, so the bound holds even when the resolved interval is
wider than the device range. -/
theorem commanded_within_device_range (deviceMin deviceMax : ℚ)
    (env : RunEnv) (cycles : Option ℕ) (hd : deviceMin ≤ deviceMax) :
    ∀ (fuel : ℕ) (s : RunSt),
      (∀ w ∈ s.commanded, deviceMin ≤ w ∧ w ≤ deviceMax) →
      ∀ w ∈ (runLoop deviceMin deviceMax env cycles fuel s).commanded,
        deviceMin ≤ w ∧ w ≤ deviceMax := by
  intro fuel
  induction fuel with
  | zero => intro s hs; simpa [runLoop] using hs
  | succ n ih =>
    intro s hs
    simp only [runLoop]
    by_cases hc : (env.running && loopCond cycles s.attempts) = true
    · rw [if_pos hc]
      refine ih _ ?_
      intro w hw
      simp only [runIter] at hw
      by_cases hcf : env.conn s.ci = false
      · rw [if_pos hcf] at hw
        exact hs w hw
      · rw [if_neg hcf] at hw
        dsimp only at hw
        rcases List.mem_append.mp hw with h | h
        · exact hs w h
        · rw [List.mem_singleton] at h
          subst h
          exact ⟨le_min (le_max_right _ _) hd, min_le_right _ _⟩
    · rw [if_neg hc]
      exact hs

/-- Witness for C8 on a one-cycle run whose draw falls far outside the
device range. -/
theorem commanded_within_device_range_witness :
    ((1000 : ℚ) ≤ 1100) ∧
    (∀ w ∈ initRunSt.commanded, (1000 : ℚ) ≤ w ∧ w ≤ 1100) ∧
    (∀ w ∈ (runLoop 1000 1100 demoEnvUp (some 1) 1 initRunSt).commanded,
      (1000 : ℚ) ≤ w ∧ w ≤ 1100) :=
  ⟨by norm_num, by simp [initRunSt],
    commanded_within_device_range 1000 1100 demoEnvUp (some 1) (by norm_num)
      1 initRunSt (by simp [initRunSt])⟩

/-- Claim C7: for every requested interval and known device range, the resolved
interval is fully contained in the device range: unset requested bounds
default to the device bounds; the requested minimum is clamped up to the
device minimum and the requested maximum down to the device maximum; a
degenerate clamp (min ≥ max) resolves to the full device range unchanged;
no error is raised on any input (the resolver is total). -/
theorem resolve_range_spec (params : TestParams) (dmin dmax : ℚ) :
    ∃ a b, (mkWorker params (some dmin, some dmax)).rangeMin = some a ∧
      (mkWorker params (some dmin, some dmax)).rangeMax = some b ∧
      dmin ≤ a ∧ b ≤ dmax ∧
      ((params.testMin = none ∨ params.testMax = none) →
        a = dmin ∧ b = dmax) ∧
      (∀ t1 t2, params.testMin = some t1 → params.testMax = some t2 →
        ((min t2 dmax ≤ max t1 dmin) → a = dmin ∧ b = dmax) ∧
        ((max t1 dmin < min t2 dmax) →
          a = max t1 dmin ∧ b = min t2 dmax)) := by
  rcases params with ⟨tmin, tmax, wt, cyc, mpc⟩
  cases tmin with
  | none =>
    cases tmax with
    | none =>
      refine ⟨dmin, dmax, ?_, ?_, le_rfl, le_rfl, fun _ => ⟨rfl, rfl⟩, ?_⟩
      · simp [mkWorker]
      · simp [mkWorker]
      · intro t1 t2 h1 h2; simp at h1
    | some t2 =>
      refine ⟨dmin, dmax, ?_, ?_, le_rfl, le_rfl, fun _ => ⟨rfl, rfl⟩, ?_⟩
      · simp [mkWorker]
      · simp [mkWorker]
      · intro t1 t2 h1 h2; simp at h1
  | some t1 =>
    cases tmax with
    | none =>
      refine ⟨dmin, dmax, ?_, ?_, le_rfl, le_rfl, fun _ => ⟨rfl, rfl⟩, ?_⟩
      · simp [mkWorker]
      · simp [mkWorker]
      · intro t1' t2' h1 h2; simp at h2
    | some t2 =>
      by_cases hdeg : min t2 dmax ≤ max t1 dmin
      · refine ⟨dmin, dmax, ?_, ?_, le_rfl, le_rfl, ?_, ?_⟩
        · simp only [mkWorker]
          rw [if_pos hdeg]
        · simp only [mkWorker]
          rw [if_pos hdeg]
        · rintro (h | h) <;> simp at h
        · intro t1' t2' h1 h2
          injection h1 with e1; injection h2 with e2
          subst e1; subst e2
          exact ⟨fun _ => ⟨rfl, rfl⟩, fun hlt => absurd hdeg (not_le.mpr hlt)⟩
      · refine ⟨max t1 dmin, min t2 dmax, ?_, ?_,
          le_max_right _ _, min_le_right _ _, ?_, ?_⟩
        · simp only [mkWorker]
          rw [if_neg hdeg]
        · simp only [mkWorker]
          rw [if_neg hdeg]
        · rintro (h | h) <;> simp at h
        · intro t1' t2' h1 h2
          injection h1 with e1; injection h2 with e2
          subst e1; subst e2
          exact ⟨fun hle => absurd hle hdeg, fun _ => ⟨rfl, rfl⟩⟩

/-- A parameter set used by the witnesses. -/
def demoParams : TestParams := ⟨some 1200, some 1500, 3, some 100, false⟩

/-- Witness for C7 at a concrete requested interval and device range. -/
theorem resolve_range_spec_witness :
    ∃ a b, (mkWorker demoParams (some (1000:ℚ), some (1300:ℚ))).rangeMin = some a ∧
      (mkWorker demoParams (some (1000:ℚ), some (1300:ℚ))).rangeMax = some b ∧
      (1000:ℚ) ≤ a ∧ b ≤ (1300:ℚ) ∧
      ((demoParams.testMin = none ∨ demoParams.testMax = none) →
        a = 1000 ∧ b = 1300) ∧
      (∀ t1 t2, demoParams.testMin = some t1 → demoParams.testMax = some t2 →
        ((min t2 (1300:ℚ) ≤ max t1 1000) → a = 1000 ∧ b = 1300) ∧
        ((max t1 (1000:ℚ) < min t2 1300) →
          a = max t1 1000 ∧ b = min t2 1300)) :=
  resolve_range_spec demoParams 1000 1300

/-- With the device always reachable and no stop requested, each allowed
iteration of a bounded run appends exactly one outcome until the cycle
budget is met, after which the loop condition fails and the state is
final. -/
lemma runLoop_counts_bounded (deviceMin deviceMax : ℚ) (env : RunEnv)
    (N : ℕ) (hrun : env.running = true) (hconn : ∀ i, env.conn i = true) :
    ∀ (fuel : ℕ) (s : RunSt), s.attempts ≤ N →
      (runLoop deviceMin deviceMax env (some N) fuel s).attempts
          = min N (s.attempts + fuel) ∧
      (runLoop deviceMin deviceMax env (some N) fuel s).results.length
          = s.results.length + (min N (s.attempts + fuel) - s.attempts) := by
  intro fuel
  induction fuel with
  | zero =>
    intro s h
    simp only [runLoop]
    constructor <;> omega
  | succ n ih =>
    intro s h
    by_cases hlt : s.attempts < N
    · have hcondtrue : (env.running && loopCond (some N) s.attempts) = true := by
        simp [hrun, loopCond, hlt]
      simp only [runLoop, hcondtrue, if_true]
      have hci : env.conn s.ci = true := hconn s.ci
      have hstep1 : (runIter deviceMin deviceMax env s).attempts
          = s.attempts + 1 := by
        simp [runIter, hci]
      have hstep2 : (runIter deviceMin deviceMax env s).results.length
          = s.results.length + 1 := by
        simp [runIter, hci]
      obtain ⟨h1, h2⟩ := ih (runIter deviceMin deviceMax env s) (by omega)
      rw [h1, h2, hstep1, hstep2]
      constructor <;> omega
    · have hcondfalse : (env.running && loopCond (some N) s.attempts) = false := by
        simp [loopCond, hlt]
      simp only [runLoop, hcondfalse, Bool.false_eq_true, if_false]
      constructor <;> omega

/-- With the device always reachable and no stop requested, an unbounded
run appends exactly one outcome per iteration. -/
lemma runLoop_counts_unbounded (deviceMin deviceMax : ℚ) (env : RunEnv)
    (hrun : env.running = true) (hconn : ∀ i, env.conn i = true) :
    ∀ (fuel : ℕ) (s : RunSt),
      (runLoop deviceMin deviceMax env none fuel s).results.length
        = s.results.length + fuel := by
  intro fuel
  induction fuel with
  | zero => intro s; simp [runLoop]
  | succ n ih =>
    intro s
    have hcondtrue : (env.running && loopCond none s.attempts) = true := by
      simp [hrun, loopCond]
    simp only [runLoop, hcondtrue, if_true]
    rw [ih]
    have : (runIter deviceMin deviceMax env s).results.length
        = s.results.length + 1 := by
      simp [runIter, hconn s.ci]
    omega

/-- Claim C9: with no connectivity failure and no stop request, a run started
with a finite cycle count `N` records exactly `N` outcomes — one per
cycle — before leaving the running loop (any extra fuel adds nothing); an
unbounded run keeps emitting one outcome per iteration; and the
constructor turns `cycles = None` or `≤ 0` into an unbounded run. -/
theorem finite_cycles_exact_outcomes (deviceMin deviceMax : ℚ)
    (env : RunEnv) (N fuel : ℕ) (hrun : env.running = true)
    (hconn : ∀ i, env.conn i = true) (hfuel : N ≤ fuel) :
    (runLoop deviceMin deviceMax env (some N) fuel initRunSt).results.length
        = N ∧
    (∀ f : ℕ,
      (runLoop deviceMin deviceMax env none f initRunSt).results.length = f) ∧
    (∀ (params : TestParams) (d : Option ℚ × Option ℚ),
      (params.cycles = none ∨ ∃ c : ℤ, c ≤ 0 ∧ params.cycles = some c) →
      (mkWorker params d).cycles = none) := by
  refine ⟨?_, ?_, ?_⟩
  · obtain ⟨h1, h2⟩ := runLoop_counts_bounded deviceMin deviceMax env N hrun
      hconn fuel initRunSt (by simp [initRunSt])
    rw [h2]
    have e1 : initRunSt.results.length = 0 := rfl
    have e2 : initRunSt.attempts = 0 := rfl
    rw [e1, e2]
    omega
  · intro f
    simpa [initRunSt] using
      runLoop_counts_unbounded deviceMin deviceMax env hrun hconn f initRunSt
  · rintro params ⟨d1, d2⟩ (hc | ⟨c, hc0, hc⟩)
    · cases d1 <;> cases d2 <;> simp [mkWorker, hc]
    · cases d1 <;> cases d2 <;> simp [mkWorker, hc, hc0]

/-- Witness for C9 on a 2-cycle run with 3 units of fuel. -/
theorem finite_cycles_exact_outcomes_witness :
    demoEnvUp.running = true ∧ (∀ i, demoEnvUp.conn i = true) ∧ 2 ≤ 3 ∧
    ((runLoop 1000 1100 demoEnvUp (some 2) 3 initRunSt).results.length = 2 ∧
      (∀ f : ℕ,
        (runLoop 1000 1100 demoEnvUp none f initRunSt).results.length = f) ∧
      (∀ (params : TestParams) (d : Option ℚ × Option ℚ),
        (params.cycles = none ∨ ∃ c : ℤ, c ≤ 0 ∧ params.cycles = some c) →
        (mkWorker params d).cycles = none)) :=
  ⟨rfl, fun _ => rfl, by omega,
    finite_cycles_exact_outcomes 1000 1100 demoEnvUp 2 3 rfl (fun _ => rfl)
      (by omega)⟩

/-- Claim C10: when the device range is unknown (either bound missing), the
constructor clears the resolved bounds, so `run` emits `finished`
immediately: no outcome is recorded, no wavelength is commanded, the
failure log stays empty, the device is never contacted (zero connectivity
checks and zero attempts), and the power-curve phase is never entered. -/
theorem range_unknown_immediate_finish (params : TestParams)
    (d1 d2 : Option ℚ) (env : RunEnv) (fuel : ℕ)
    (h : d1 = none ∨ d2 = none) :
    workerRun (mkWorker params (d1, d2)) env fuel =
      { results := [], commanded := [], failLog := [], powerCurve := none,
        finished := true, connChecks := 0, attemptsMade := 0, lost := 0 } := by
  have hmin : (mkWorker params (d1, d2)).rangeMin = none := by
    rcases h with rfl | rfl
    · cases d2 <;> simp [mkWorker]
    · cases d1 <;> simp [mkWorker]
  rcases hmax : (mkWorker params (d1, d2)).rangeMax with _ | v <;>
    simp [workerRun, hmin, hmax]

/-- Witness for C10: a worker built with an unknown device minimum
finishes immediately without touching the device. -/
theorem range_unknown_immediate_finish_witness :
    ((none : Option ℚ) = none ∨ (some (1300:ℚ) : Option ℚ) = none) ∧
    workerRun (mkWorker demoParams ((none : Option ℚ), some (1300:ℚ)))
        demoEnvUp 5 =
      { results := [], commanded := [], failLog := [], powerCurve := none,
        finished := true, connChecks := 0, attemptsMade := 0, lost := 0 } :=
  ⟨Or.inl rfl,
    range_unknown_immediate_finish demoParams none (some 1300) demoEnvUp 5
      (Or.inl rfl)⟩

/-- A run environment whose connectivity checks fail twice (indices 0 and
1) and succeed from then on, with every attempt succeeding and the power
query answering 5. -/
def demoEnvOutage : RunEnv :=
  ⟨true, fun i => decide (2 ≤ i), fun _ => 0, fun _ => (true, 1),
    fun _ => some 5⟩

/-- Claim C4 counterexample: on a two-point grid [1000, 1010] where only the
reachability check of the first point and its single retry fail (connectivity
is back for every later check, every attempt would succeed and the power
query would answer), the code BREAKS out of the loop: no attempt is ever
made (`ai = 0`), no sample recorded, and no further connectivity check
issued (`ci = 2`) — the remaining point 1010 is abandoned, contradicting
"causes at most that single point to be given up; the phase still
attempts every remaining sample point". -/
theorem powerCurve_conn_retry_abort_cex :
    (pcLoop 1000 1100 demoEnvOutage [1000, 1010] pcInit).ai = 0 ∧
    (pcLoop 1000 1100 demoEnvOutage [1000, 1010] pcInit).samples = [] ∧
    (pcLoop 1000 1100 demoEnvOutage [1000, 1010] pcInit).ci = 2 ∧
    demoEnvOutage.conn 2 = true :=
  ⟨rfl, rfl, rfl, rfl⟩

/-- Claim C4 (amended): when the reachability check of a sample point fails, it is
retried once after a 2 s pause; if the retry succeeds the point is still
attempted (the attempt counter advances and the loop continues with the
remaining points); if the retry also fails, the power-curve phase ends
immediately — that point AND all remaining points are abandoned, with no
further attempt and the samples collected so far emitted unchanged. -/
theorem powerCurve_conn_retry_behavior (deviceMin deviceMax : ℚ)
    (env : RunEnv) (wl : ℤ) (rest : List ℤ) (s : PCSt)
    (hrun : env.running = true) (hfail1 : env.conn s.ci = false) :
    (env.conn (s.ci + 1) = false →
      pcLoop deviceMin deviceMax env (wl :: rest) s =
        { s with ci := s.ci + 2, lost := s.lost + 1 }) ∧
    (env.conn (s.ci + 1) = true →
      ∃ s1, pcLoop deviceMin deviceMax env (wl :: rest) s =
          pcLoop deviceMin deviceMax env rest s1 ∧
        s1.ai = s.ai + 1 ∧ s1.ci = s.ci + 2 ∧ s1.lost = s.lost + 1) := by
  constructor
  · intro hfail2
    simp only [pcLoop]
    rw [if_neg (by simp [hrun]), if_pos ⟨hfail1, hfail2⟩]
  · intro hok2
    simp only [pcLoop]
    rw [if_neg (by simp [hrun]), if_neg (by simp [hok2])]
    simp only [hfail1, Bool.false_eq_true, if_false]
    cases hr : (env.attemptResult s.ai).1 with
    | true =>
      rw [if_pos rfl]
      cases hp : env.power s.pqi with
      | some p => exact ⟨_, rfl, rfl, rfl, rfl⟩
      | none => exact ⟨_, rfl, rfl, rfl, rfl⟩
    | false =>
      rw [if_neg (by simp)]
      exact ⟨_, rfl, rfl, rfl, rfl⟩

/-- Witness for the amended C4 theorem: first check fails at the head
point of the grid (the retry also fails in this environment, exercising
the abort conjunct; the retry-success conjunct holds vacuously). -/
theorem powerCurve_conn_retry_behavior_witness :
    demoEnvOutage.running = true ∧
    demoEnvOutage.conn pcInit.ci = false ∧
    ((demoEnvOutage.conn (pcInit.ci + 1) = false →
        pcLoop 1000 1100 demoEnvOutage (1000 :: [1010]) pcInit =
          { pcInit with ci := pcInit.ci + 2, lost := pcInit.lost + 1 }) ∧
      (demoEnvOutage.conn (pcInit.ci + 1) = true →
        ∃ s1, pcLoop 1000 1100 demoEnvOutage (1000 :: [1010]) pcInit =
            pcLoop 1000 1100 demoEnvOutage [1010] s1 ∧
          s1.ai = pcInit.ai + 1 ∧ s1.ci = pcInit.ci + 2 ∧
          s1.lost = pcInit.lost + 1)) :=
  ⟨rfl, rfl,
    powerCurve_conn_retry_behavior 1000 1100 demoEnvOutage 1000 [1010] pcInit
      rfl rfl⟩

end Cronus
